import Mathlib

/-!
Verification of the Document Forge front end (`src/frontend/src`).

The development shallowly embeds the client logic of
`routes/+page.svelte` (upload / mapping / generate flow) and
`lib/components/Extractor.svelte` (PDF extraction flow), plus the
mapping resolver and row batcher of the companion engine specification,
and proves or refutes the specified properties.
-/

namespace DocumentForge

/-! ## String helpers (JavaScript semantics on ASCII) -/

/-- Model of JavaScript `\s` for the characters that occur in CSV
headers and placeholder tags. -/
def jsWhitespace (c : Char) : Bool :=
  c = ' ' ∨ c = '\t' ∨ c = '\n' ∨ c = '\r' ∨ c = '\x0b' ∨ c = '\x0c'

/-- Model of JavaScript `toLowerCase` on one character, restricted to
ASCII (sufficient for the suffix test `".pdf"` and header matching). -/
def lowerAscii (c : Char) : Char :=
  if 'A' ≤ c ∧ c ≤ 'Z' then Char.ofNat (c.toNat + 32) else c

/-- Model of `file.name.toLowerCase().endsWith(".pdf")` from
`Extractor.svelte`, `processPdfSelection`. -/
def endsWithPdf (name : String) : Bool :=
  List.isPrefixOf ['f', 'd', 'p', '.'] ((name.data.map lowerAscii).reverse)

/-! ## Generator page: mapping state (`routes/+page.svelte`) -/

/-- The union `type MappingType = "csv_column" | "custom_text" | "combined"`. -/
inductive MappingType where
  | csv_column
  | custom_text
  | combined
deriving DecidableEq, Repr

/-- The `interface MappingConfig` (fields `type`, `value`, `customText`,
`prefix`, `suffix`; the latter two are named `pre`/`suf` here because
Lean reserves those words). -/
structure MappingConfig where
  type : MappingType
  value : String
  customText : String
  pre : String
  suf : String
deriving DecidableEq, Repr

/-- JavaScript `ph.replace("#", "")`: removes the first occurrence of
the hash character only. -/
def removeFirstHash : List Char → List Char
  | [] => []
  | c :: cs => if c = '#' then cs else c :: removeFirstHash cs

/-- Model of `ph.replace("#", "").toLowerCase().replace(/\s/g, "")` from
`autoDetectMappings`. -/
def cleanPlaceholder (ph : String) : String :=
  ⟨((removeFirstHash ph.data).map lowerAscii).filter (fun c => ¬ jsWhitespace c)⟩

/-- Model of `header.toLowerCase().replace(/\s/g, "")` from
`autoDetectMappings`. -/
def cleanHeader (h : String) : String :=
  ⟨(h.data.map lowerAscii).filter (fun c => ¬ jsWhitespace c)⟩

/-- The header-scanning loop of `autoDetectMappings`: the first header
matching the cleaned placeholder (or the special `P_ ADDRESS` pair),
else `""`. -/
def findMatch (ph : String) (headers : List String) : String :=
  match headers.find? (fun h =>
      cleanHeader h = cleanPlaceholder ph ∨ (h = "P_ ADDRESS" ∧ ph = "#P_ ADDRESS")) with
  | some h => h
  | none => ""

/-- The `MappingConfig` object `autoDetectMappings` stores for one
placeholder: `type: match ? "csv_column" : "custom_text"`, `value:
match`, empty `customText`/`prefix`/`suffix`. -/
def configFor (ph : String) (headers : List String) : MappingConfig :=
  let m := findMatch ph headers
  { type := if m = "" then .custom_text else .csv_column
    value := m
    customText := ""
    pre := ""
    suf := "" }

/-- The assignment `mappings[ph] = v` on a JavaScript object modelled as an
association list: overwrite in place when the key exists, append
otherwise (JavaScript preserves first-insertion key order). -/
def objInsert (m : List (String × MappingConfig)) (k : String) (v : MappingConfig) :
    List (String × MappingConfig) :=
  if m.any (fun p => p.1 = k) then
    m.map (fun p => if p.1 = k then (k, v) else p)
  else
    m ++ [(k, v)]

/-- Model of `autoDetectMappings`: `docxPlaceholders.forEach((ph) => { ...;
mappings[ph] = {...} })`, starting from the current `mappings` object
`m0`. -/
def autoDetectMappings (placeholders headers : List String)
    (m0 : List (String × MappingConfig)) : List (String × MappingConfig) :=
  placeholders.foldl (fun m ph => objInsert m ph (configFor ph headers)) m0

/-- Number of entries of the object whose key is `k`. -/
def countKey (m : List (String × MappingConfig)) (k : String) : Nat :=
  m.countP (fun p => p.1 = k)

/-- First value stored under key `k`. -/
def lookupKey (m : List (String × MappingConfig)) (k : String) : Option MappingConfig :=
  (m.find? (fun p => p.1 = k)).map (fun p => p.2)

/-! ## Generator page: the JSON payload of `handleGenerate` -/

/-- The fragment of JSON the client serialises with `JSON.stringify`. -/
inductive Json where
  | str : String → Json
  | bool : Bool → Json
  | obj : List (String × Json) → Json

/-- The wire tag of a `MappingType` (the string literals of
`+page.svelte`). -/
def mappingTag : MappingType → String
  | .csv_column => "csv_column"
  | .custom_text => "custom_text"
  | .combined => "combined"

/-- The expression `value: conf.type === "custom_text" ? conf.customText : conf.value`
from the `cleanMapping` loop of `handleGenerate`. -/
def cleanValue (c : MappingConfig) : String :=
  if c.type = .custom_text then c.customText else c.value

/-- One entry of the `cleanMapping` payload:
`{ type, value, prefix, suffix }`. -/
def cleanEntryJson (c : MappingConfig) : Json :=
  .obj [("type", .str (mappingTag c.type)),
        ("value", .str (cleanValue c)),
        ("prefix", .str c.pre),
        ("suffix", .str c.suf)]

/-- The whole `cleanMapping` object, one entry per mapping key. -/
def cleanMappingJson (m : List (String × MappingConfig)) : Json :=
  .obj (m.map (fun p => (p.1, cleanEntryJson p.2)))

/-- The request body of the `fetch` call in `handleGenerate`:
`JSON.stringify({ session_id, mapping, generate_docx, generate_pdf })`. -/
def generateBody (sessionId : String) (m : List (String × MappingConfig))
    (docx pdf : Bool) : Json :=
  .obj [("session_id", .str sessionId),
        ("mapping", cleanMappingJson m),
        ("generate_docx", .bool docx),
        ("generate_pdf", .bool pdf)]

/-- Top-level keys of a JSON object. -/
def topKeys : Json → List String
  | .obj fields => fields.map (fun p => p.1)
  | _ => []

/-- Field access on a JSON object. -/
def getField (j : Json) (k : String) : Option Json :=
  match j with
  | .obj fields => (fields.find? (fun p => p.1 = k)).map (fun p => p.2)
  | _ => none

/-- Projection of a JSON string. -/
def asStr : Json → Option String
  | .str s => some s
  | _ => none

/-! ## Generator page: state and handlers -/

/-- The mutable state of `routes/+page.svelte` that the claims are
about. -/
structure GenState where
  step : Nat
  csvHeaders : List String
  docxPlaceholders : List String
  totalRows : Nat
  sessionId : String
  errorMsg : String
  isUploading : Bool
  mappings : List (String × MappingConfig)
  optionsDocx : Bool
  optionsPdf : Bool
  isGenerating : Bool
  generationComplete : Bool
  downloadUrl : String
deriving DecidableEq, Repr

/-- The initial values of the `let` declarations of `+page.svelte`. -/
def initGenState : GenState :=
  { step := 1
    csvHeaders := []
    docxPlaceholders := []
    totalRows := 0
    sessionId := ""
    errorMsg := ""
    isUploading := false
    mappings := []
    optionsDocx := true
    optionsPdf := true
    isGenerating := false
    generationComplete := false
    downloadUrl := "" }

/-- Outcome of the two awaited calls inside `handleUpload`: the
`/upload` response is not ok, the `/metadata` response is not ok (after
`session_id` was already stored), or both succeed with the metadata
payload. `serviceMsg` is whatever descriptive message the service put
in the failing response; the client never reads it. -/
inductive UploadOutcome where
  | uploadNotOk (serviceMsg : String)
  | metadataNotOk (sessionId serviceMsg : String)
  | ok (sessionId : String) (headers placeholders : List String) (totalRows : Nat)

/-- Model of `handleUpload`: sets `isUploading`/clears `errorMsg`, then either
throws `new Error("Upload failed")` / `new Error("Metadata extraction
failed")` (caught into `errorMsg`) or stores the metadata, runs
`autoDetectMappings` and advances to step 2; `finally` resets
`isUploading`. -/
def handleUpload (st : GenState) (o : UploadOutcome) : GenState :=
  match o with
  | .uploadNotOk _ =>
      { st with errorMsg := "Upload failed", isUploading := false }
  | .metadataNotOk sid _ =>
      { st with sessionId := sid
                errorMsg := "Metadata extraction failed"
                isUploading := false }
  | .ok sid headers placeholders rows =>
      { st with sessionId := sid
                csvHeaders := headers
                docxPlaceholders := placeholders
                totalRows := rows
                mappings := autoDetectMappings placeholders headers st.mappings
                step := 2
                errorMsg := ""
                isUploading := false }

/-- Outcome of the `fetch` inside `handleGenerate`: an ok response
(whose blob yields the object URL `url`), a non-ok response (the
client throws the fixed `new Error("Generation failed")`), or a
rejected `fetch` whose error message is `msg`. -/
inductive GenerateOutcome where
  | ok (url : String)
  | notOk (serviceMsg : String)
  | networkError (msg : String)

/-- State effect of `handleGenerate`: on success `downloadUrl`,
`generationComplete` and `step` are set; on any failure only
`errorMsg` is written; `finally` resets `isGenerating`. -/
def handleGenerate (st : GenState) (o : GenerateOutcome) : GenState :=
  match o with
  | .ok url =>
      { st with errorMsg := ""
                downloadUrl := url
                generationComplete := true
                step := 3
                isGenerating := false }
  | .notOk _ =>
      { st with errorMsg := "Generation failed", isGenerating := false }
  | .networkError msg =>
      { st with errorMsg := msg, isGenerating := false }

/-- The request `handleGenerate` issues for the current state. -/
def generateRequestOf (st : GenState) : Json :=
  generateBody st.sessionId st.mappings st.optionsDocx st.optionsPdf

/-- The `disabled` binding of the Forge Documents button:
`Object.keys(mappings).length === 0 || isGenerating`. -/
def generateDisabled (st : GenState) : Bool :=
  st.mappings.length = 0 ∨ st.isGenerating

/-! ## Mapping Resolver (engine side, not in `src/`) -/

/-- Variant tags the spec gives a `MappingConfig` (engine data model
§3: `data_column`, `custom_text`, `combined`). -/
inductive SpecTag where
  | data_column
  | custom_text
  | combined
deriving DecidableEq, Repr

/-- Case modifier of a `data_column` mapping (§3). -/
inductive CaseModifier where
  | uppercase
  | lowercase
  | noModifier
deriving DecidableEq, Repr

/-- Modelled from the spec: the engine-side mapping entry of §3
(`data_column` column reference or `custom_text` literal in `value`,
optional prefix/suffix in `pre`/`suf`, case modifier, optional
fallback text). The engine itself is not in `src/`. -/
structure SpecMappingConfig where
  tag : SpecTag
  value : String
  pre : String
  suf : String
  modifier : CaseModifier
  fallback : Option String
deriving DecidableEq, Repr

/-- A data row: column name to string value; missing keys allowed. -/
def RowData := List (String × String)

/-- Row lookup `row[key]` with a missing key resolving to the empty string
(§4.2, edge cases). -/
def lookupRow (row : RowData) (k : String) : String :=
  match row.find? (fun p => p.1 = k) with
  | some p => p.2
  | none => ""

/-- ASCII uppercase, the inverse direction of `lowerAscii`. -/
def upperAscii (c : Char) : Char :=
  if 'a' ≤ c ∧ c ≤ 'z' then Char.ofNat (c.toNat - 32) else c

/-- Apply a case modifier to a resolved value (§4.2 step 2). -/
def applyModifier (m : CaseModifier) (s : String) : String :=
  match m with
  | .uppercase => ⟨s.data.map upperAscii⟩
  | .lowercase => ⟨s.data.map lowerAscii⟩
  | .noModifier => s

/-- Modelled from the spec: `resolve(placeholder, config, row) ->
string` of §4.2 (the Mapping Resolver is engine code absent from
`src/`). Step 1 computes the base value, step 2 applies
modifier/fallback for `data_column`, step 3 composes
`prefix + base + suffix` for `combined`, step 4 makes `custom_text`
return its literal unchanged. -/
def resolve (cfg : SpecMappingConfig) (row : RowData) : String :=
  match cfg.tag with
  | .custom_text => cfg.value
  | .data_column =>
      let modified := applyModifier cfg.modifier (lookupRow row cfg.value)
      match cfg.fallback with
      | some fb => if modified = "" then fb else modified
      | none => modified
  | .combined => cfg.pre ++ lookupRow row cfg.value ++ cfg.suf

/-- How an entry the client sends (`cleanMapping`) reads as an
engine-side config: the client tag `csv_column` is the spec tag
`data_column`, and the payload carries no modifier or fallback, so
those are absent. -/
def specConfigOf (c : MappingConfig) : SpecMappingConfig :=
  { tag := match c.type with
           | .csv_column => .data_column
           | .custom_text => .custom_text
           | .combined => .combined
    value := cleanValue c
    pre := c.pre
    suf := c.suf
    modifier := .noModifier
    fallback := none }

/-! ## Row Batcher (engine side, not in `src/`) -/

/-- Chunk a list into groups of `r` (at least 1) elements; the last
group may be shorter. -/
def chunkList (r : Nat) : List α → List (List α)
  | [] => []
  | x :: xs => ((x :: xs).take (max r 1)) :: chunkList r ((x :: xs).drop (max r 1))
termination_by rows => rows.length
decreasing_by
  simp only [List.length_drop, List.length_cons]
  omega

/-- Modelled from the spec: `batch(rows, rowsPerDoc)` of §4.3 (the Row
Batcher is engine code absent from `src/`): order-preserving groups of
`rowsPerDoc` rows, `rowsPerDoc <= 0` treated as `1`. -/
def batch (rows : List α) (rowsPerDoc : Int) : List (List α) :=
  chunkList (if rowsPerDoc ≤ 0 then 1 else rowsPerDoc.toNat) rows

/-- Ceiling division on naturals, `ceil(n / r)` for `r ≥ 1`. -/
def ceilDiv (n r : Nat) : Nat := (n + r - 1) / r

/-! ## Extractor (`lib/components/Extractor.svelte`) -/

/-- The union `processingOption: "allText" | "tablesOnly"`. -/
inductive ProcessingOption where
  | allText
  | tablesOnly
deriving DecidableEq, Repr

/-- The union `outputFormat: "excel" | "csv"`. -/
inductive OutputFormat where
  | excel
  | csv
deriving DecidableEq, Repr

/-- The download extension chosen in `handleExtract`:
`let ext = outputFormat === "csv" ? "csv" : "xlsx";
if (processingOption === "tablesOnly" && outputFormat === "csv")
ext = "zip";`. -/
def extractExt (p : ProcessingOption) (f : OutputFormat) : String :=
  let ext := if f = .csv then "csv" else "xlsx"
  if p = .tablesOnly ∧ f = .csv then "zip" else ext

/-- The selected file, as far as the client inspects it. -/
structure FileRec where
  name : String
deriving DecidableEq, Repr

/-- The mutable state of `Extractor.svelte`. -/
structure ExtractorState where
  step : Nat
  pdfFile : Option FileRec
  isUploading : Bool
  processingOption : ProcessingOption
  outputFormat : OutputFormat
  errorMsg : String
deriving DecidableEq, Repr

/-- The initial values of the `let` declarations of
`Extractor.svelte`. -/
def initExtractorState : ExtractorState :=
  { step := 1
    pdfFile := none
    isUploading := false
    processingOption := .allText
    outputFormat := .excel
    errorMsg := "" }

/-- Model of `processPdfSelection(file)`: reject non-`.pdf` names with an error
message, otherwise store the file, clear the error and move to
step 2. -/
def processPdfSelection (st : ExtractorState) (file : FileRec) : ExtractorState :=
  if endsWithPdf file.name then
    { st with pdfFile := some file, errorMsg := "", step := 2 }
  else
    { st with errorMsg := "Please upload a valid PDF file." }

/-- Model of `clearFile()`. -/
def clearFile (st : ExtractorState) : ExtractorState :=
  { st with pdfFile := none, step := 1, errorMsg := "" }

/-- The multipart form `handleExtract` posts to
`/converter/extract`. -/
structure ExtractRequest where
  pdfFile : FileRec
  processingOption : ProcessingOption
  outputFormat : OutputFormat
deriving DecidableEq, Repr

/-- Outcome of the `fetch` inside `handleExtract`: ok response, non-ok
response carrying `errData.detail` (possibly absent), or a rejected
`fetch` with error message `msg`. -/
inductive ExtractOutcome where
  | ok
  | notOk (detail : Option String)
  | networkError (msg : String)

/-- The expression `errData.detail || "Extraction failed"` (JavaScript `||`: an empty
or absent `detail` falls back). -/
def extractErrorText (detail : Option String) : String :=
  match detail with
  | some d => if d = "" then "Extraction failed" else d
  | none => "Extraction failed"

/-- The expression `err.message || "Could not connect to the extraction server."`. -/
def extractCatchText (msg : String) : String :=
  if msg = "" then "Could not connect to the extraction server." else msg

/-- Model of `handleExtract()`: returns the new state and the request that was
issued, if any. The early `if (!pdfFile) return;` issues nothing; on a
successful download `clearFile()` runs; on failure only `errorMsg` is
written; `finally` resets `isUploading`. -/
def handleExtractStep (st : ExtractorState) (o : ExtractOutcome) :
    ExtractorState × Option ExtractRequest :=
  match st.pdfFile with
  | none => (st, none)
  | some f =>
      let req : ExtractRequest :=
        { pdfFile := f
          processingOption := st.processingOption
          outputFormat := st.outputFormat }
      match o with
      | .ok =>
          (clearFile { st with errorMsg := "", isUploading := false }, some req)
      | .notOk detail =>
          ({ st with errorMsg := extractErrorText detail, isUploading := false },
           some req)
      | .networkError msg =>
          ({ st with errorMsg := extractCatchText msg, isUploading := false },
           some req)

/-- States of `Extractor.svelte` reachable from the initial state by
its event handlers. -/
inductive Reachable : ExtractorState → Prop where
  | init : Reachable initExtractorState
  | selectPdf (st : ExtractorState) (file : FileRec) :
      Reachable st → Reachable (processPdfSelection st file)
  | clear (st : ExtractorState) :
      Reachable st → Reachable (clearFile st)
  | dismissError (st : ExtractorState) :
      Reachable st → Reachable { st with errorMsg := "" }
  | setProcessing (st : ExtractorState) (p : ProcessingOption) :
      Reachable st → Reachable { st with processingOption := p }
  | setFormat (st : ExtractorState) (f : OutputFormat) :
      Reachable st → Reachable { st with outputFormat := f }
  | startUpload (st : ExtractorState) :
      Reachable st → Reachable { st with isUploading := true }
  | extract (st : ExtractorState) (o : ExtractOutcome) :
      Reachable st → Reachable (handleExtractStep st o).1

/-! ## Helper lemmas -/

theorem chunkList_nil (r : Nat) : chunkList r ([] : List α) = [] := by
  simp [chunkList]

theorem chunkList_cons (r : Nat) (x : α) (xs : List α) :
    chunkList r (x :: xs) =
      ((x :: xs).take (max r 1)) :: chunkList r ((x :: xs).drop (max r 1)) := by
  rw [chunkList]

theorem chunkList_flatten (r : Nat) (rows : List α) :
    (chunkList r rows).flatten = rows := by
  cases rows with
  | nil => simp [chunkList_nil]
  | cons x xs =>
    rw [chunkList_cons, List.flatten_cons,
        chunkList_flatten r ((x :: xs).drop (max r 1))]
    exact List.take_append_drop _ _
termination_by rows.length
decreasing_by
  simp only [List.length_drop, List.length_cons]
  omega

theorem ceilDiv_step (n e : Nat) (he : 1 ≤ e) (hn : 1 ≤ n) :
    ceilDiv (n - e) e + 1 = ceilDiv n e := by
  unfold ceilDiv
  rcases le_or_lt n e with h | h
  · have h0 : n - e = 0 := by omega
    rw [h0]
    have h1 : (0 + e - 1) / e = 0 := Nat.div_eq_of_lt (by omega)
    have h2 : (n + e - 1) / e = 1 :=
      Nat.div_eq_of_lt_le (by omega) (by omega)
    omega
  · have h3 : n + e - 1 = ((n - e) + e - 1) + e := by omega
    rw [h3, Nat.add_div_right _ (by omega : 0 < e)]

theorem chunkList_length (r : Nat) (rows : List α) :
    (chunkList r rows).length = ceilDiv rows.length (max r 1) := by
  cases rows with
  | nil =>
    simp only [chunkList_nil, List.length_nil, ceilDiv]
    rw [Nat.div_eq_of_lt (by omega)]
  | cons x xs =>
    rw [chunkList_cons]
    simp only [List.length_cons, chunkList_length r ((x :: xs).drop (max r 1)),
      List.length_drop]
    exact ceilDiv_step (xs.length + 1) (max r 1) (by omega) (by omega)
termination_by rows.length
decreasing_by
  simp only [List.length_drop, List.length_cons]
  omega

theorem chunkList_getElem (r : Nat) (i : Nat) (rows : List α)
    (h : i < (chunkList r rows).length) :
    (chunkList r rows)[i]? =
      some ((rows.drop (i * max r 1)).take (max r 1)) := by
  induction i generalizing rows with
  | zero =>
    cases rows with
    | nil => simp [chunkList_nil] at h
    | cons x xs =>
      rw [chunkList_cons]
      simp
  | succ j ih =>
    cases rows with
    | nil => simp [chunkList_nil] at h
    | cons x xs =>
      rw [chunkList_cons] at h ⊢
      simp only [List.length_cons] at h
      have h' : j < (chunkList r ((x :: xs).drop (max r 1))).length := by omega
      simp only [List.getElem?_cons_succ]
      rw [ih ((x :: xs).drop (max r 1)) h', List.drop_drop]
      have harith : max r 1 + j * max r 1 = (j + 1) * max r 1 := by ring
      rw [harith]

theorem countKey_objInsert_self (m : List (String × MappingConfig))
    (k : String) (v : MappingConfig) :
    countKey (objInsert m k v) k = if countKey m k = 0 then 1 else countKey m k := by
  unfold objInsert countKey
  by_cases h : (m.any (fun p => p.1 = k)) = true
  · rw [if_pos h]
    have hpos : 0 < m.countP (fun p => decide (p.1 = k)) := by
      rw [List.countP_pos_iff]
      obtain ⟨a, ha, hak⟩ := List.any_eq_true.mp h
      exact ⟨a, ha, hak⟩
    rw [List.countP_map]
    have hfun : ((fun p => decide (p.1 = k)) ∘
        fun p => if p.1 = k then (k, v) else p) = fun p => decide (p.1 = k) := by
      funext q
      by_cases hq : q.1 = k <;> simp [hq]
    rw [hfun, if_neg (by omega)]
  · rw [if_neg h]
    rw [List.countP_append]
    have hz : m.countP (fun p => decide (p.1 = k)) = 0 := by
      rw [List.countP_eq_zero]
      intro a ha
      simp only [decide_eq_true_eq]
      intro hak
      exact h (List.any_eq_true.mpr ⟨a, ha, by simp [hak]⟩)
    simp [hz]

theorem countKey_objInsert_ne (m : List (String × MappingConfig))
    (k k' : String) (v : MappingConfig) (h : k' ≠ k) :
    countKey (objInsert m k v) k' = countKey m k' := by
  unfold objInsert countKey
  by_cases ha : (m.any (fun p => p.1 = k)) = true
  · rw [if_pos ha]
    rw [List.countP_map]
    congr 1
    funext q
    by_cases hq : q.1 = k <;> simp [hq, Ne.symm h]
  · rw [if_neg ha]
    rw [List.countP_append]
    simp [Ne.symm h]

theorem countKey_autoDetect (placeholders headers : List String)
    (m0 : List (String × MappingConfig)) (k : String)
    (h : countKey m0 k ≤ 1) :
    countKey (autoDetectMappings placeholders headers m0) k =
      if k ∈ placeholders then 1 else countKey m0 k := by
  induction placeholders generalizing m0 with
  | nil => simp [autoDetectMappings]
  | cons ph rest ih =>
    have hstep : autoDetectMappings (ph :: rest) headers m0 =
        autoDetectMappings rest headers (objInsert m0 ph (configFor ph headers)) := rfl
    rw [hstep]
    by_cases hk : k = ph
    · subst hk
      have h1 : countKey (objInsert m0 k (configFor k headers)) k = 1 := by
        rw [countKey_objInsert_self]
        split <;> omega
      rw [ih _ (by omega)]
      by_cases hr : k ∈ rest <;> simp [hr, h1]
    · have h2 : countKey (objInsert m0 ph (configFor ph headers)) k = countKey m0 k :=
        countKey_objInsert_ne _ _ _ _ hk
      rw [ih _ (by rw [h2]; exact h), h2]
      by_cases hr : k ∈ rest <;> simp [hr, hk]

theorem reachable_pdfFile_valid (st : ExtractorState) (h : Reachable st) :
    ∀ f : FileRec, st.pdfFile = some f → endsWithPdf f.name = true := by
  induction h with
  | init => intro f hf; simp [initExtractorState] at hf
  | selectPdf st file _ ih =>
    intro f hf
    unfold processPdfSelection at hf
    by_cases hp : endsWithPdf file.name
    · simp [hp] at hf
      rw [← hf]
      exact hp
    · simp [hp] at hf
      exact ih f hf
  | clear st _ ih => intro f hf; simp [clearFile] at hf
  | dismissError st _ ih => intro f hf; exact ih f hf
  | setProcessing st p _ ih => intro f hf; exact ih f hf
  | setFormat st fo _ ih => intro f hf; exact ih f hf
  | startUpload st _ ih => intro f hf; exact ih f hf
  | extract st o _ ih =>
    intro f hf
    unfold handleExtractStep at hf
    cases hpf : st.pdfFile with
    | none => rw [hpf] at hf; exact ih f (by simpa using hf)
    | some g =>
      rw [hpf] at hf
      cases o with
      | ok => simp [clearFile] at hf
      | notOk detail =>
        simp at hf
        exact ih f (by rw [hpf, hf])
      | networkError msg =>
        simp at hf
        exact ih f (by rw [hpf, hf])

/-! ## Claims -/

/-- C1 (counterexample): a generate request the client issues — here
the one built from the initial state — carries none of the fields
`remove_empty_pages`, `merge_output`, `rows_per_doc`, `doc_settings`,
refuting the claim that every generate request carries them. -/
theorem generate_request_omits_batch_fields :
    "remove_empty_pages" ∉ topKeys (generateRequestOf initGenState)
    ∧ "merge_output" ∉ topKeys (generateRequestOf initGenState)
    ∧ "rows_per_doc" ∉ topKeys (generateRequestOf initGenState)
    ∧ "doc_settings" ∉ topKeys (generateRequestOf initGenState) := by
  refine ⟨?_, ?_, ?_, ?_⟩ <;> decide

/-- C1 (amended): every generate request the client issues carries
exactly the fields `session_id`, `mapping`, `generate_docx` and
`generate_pdf`, and on an ok response the object URL of the archive blob is stored
synchronously as the download link with generation marked complete. -/
theorem generate_request_fields (sid : String)
    (m : List (String × MappingConfig)) (docx pdf : Bool)
    (st : GenState) (url : String) :
    topKeys (generateBody sid m docx pdf) =
      ["session_id", "mapping", "generate_docx", "generate_pdf"]
    ∧ (handleGenerate st (.ok url)).downloadUrl = url
    ∧ (handleGenerate st (.ok url)).generationComplete = true :=
  ⟨rfl, rfl, rfl⟩

/-- C2 (counterexample): after a successful upload whose metadata
reports zero placeholders, the mapping record is empty and the
generate button is disabled, refuting the claim that generation can
still be started with zero mappings. -/
theorem zero_placeholders_generate_disabled :
    (handleUpload initGenState (.ok "sid" ["Name", "Amount"] [] 5)).mappings = []
    ∧ generateDisabled (handleUpload initGenState (.ok "sid" ["Name", "Amount"] [] 5))
        = true := by
  refine ⟨?_, ?_⟩ <;> decide

/-- C2 (amended): a template yielding zero placeholder tags leaves the
mapping record empty, and the client then disables the Forge
Documents button, so generation cannot be started for such a
session. -/
theorem zero_placeholders_blocks_generation (st : GenState)
    (sid : String) (headers : List String) (rows : Nat)
    (h : st.mappings = []) :
    (handleUpload st (.ok sid headers [] rows)).mappings = []
    ∧ generateDisabled (handleUpload st (.ok sid headers [] rows)) = true := by
  constructor
  · simp [handleUpload, autoDetectMappings, h]
  · simp [generateDisabled, handleUpload, autoDetectMappings, h]

theorem zero_placeholders_blocks_generation_witness :
    (handleUpload initGenState (.ok "sid" ["Name"] [] 5)).mappings = []
    ∧ generateDisabled (handleUpload initGenState (.ok "sid" ["Name"] [] 5)) = true :=
  zero_placeholders_blocks_generation initGenState "sid" ["Name"] 5 rfl

/-- C3 (counterexample): for `tablesOnly` extraction with output
format `csv` the client always saves the result as a `.zip`, never as
a single `.csv`, refuting the claim that one produced table yields a
single CSV in that mode. -/
theorem tablesOnly_csv_saved_as_zip :
    extractExt .tablesOnly .csv = "zip"
    ∧ extractExt .tablesOnly .csv ≠ "csv" := by
  refine ⟨?_, ?_⟩ <;> decide

/-- C3 (amended): the extension of the saved extraction result is a
function of mode and format alone — `csv` for `allText` with format
`csv`, `zip` for `tablesOnly` with format `csv`, `xlsx` for format
`excel` — independent of how many tables or pages are produced. -/
theorem extract_ext_by_mode (p : ProcessingOption) :
    extractExt .allText .csv = "csv"
    ∧ extractExt .tablesOnly .csv = "zip"
    ∧ extractExt p .excel = "xlsx" := by
  cases p <;> exact ⟨rfl, rfl, rfl⟩

/-- C4 (counterexample): when the upload call fails with a descriptive
service message, the message surfaced to the user is the fixed string
`"Upload failed"`, not the message the service reported, refuting verbatim
propagation. -/
theorem upload_error_message_fixed :
    (handleUpload initGenState (.uploadNotOk "CSV file is malformed: row 7")).errorMsg
      = "Upload failed"
    ∧ (handleUpload initGenState (.uploadNotOk "CSV file is malformed: row 7")).errorMsg
      ≠ "CSV file is malformed: row 7" := by
  refine ⟨?_, ?_⟩ <;> decide

/-- C4 (amended): failing upload/metadata/generate calls abort the
request (the step does not advance) but surface fixed client-side
messages (`"Upload failed"`, `"Metadata extraction failed"`,
`"Generation failed"`) regardless of the message the service reported;
only the extract call surfaces a non-empty service `detail` verbatim. -/
theorem error_message_propagation (st : GenState) (est : ExtractorState)
    (sid svcMsg : String) (f : FileRec) (d : String)
    (hd : d ≠ "") (hf : est.pdfFile = some f) :
    (handleUpload st (.uploadNotOk svcMsg)).errorMsg = "Upload failed"
    ∧ (handleUpload st (.uploadNotOk svcMsg)).step = st.step
    ∧ (handleUpload st (.metadataNotOk sid svcMsg)).errorMsg
        = "Metadata extraction failed"
    ∧ (handleUpload st (.metadataNotOk sid svcMsg)).step = st.step
    ∧ (handleGenerate st (.notOk svcMsg)).errorMsg = "Generation failed"
    ∧ (handleExtractStep est (.notOk (some d))).1.errorMsg = d := by
  refine ⟨rfl, rfl, rfl, rfl, rfl, ?_⟩
  simp [handleExtractStep, hf, extractErrorText, hd]

theorem error_message_propagation_witness :
    (handleUpload initGenState (.uploadNotOk "boom")).errorMsg = "Upload failed"
    ∧ (handleExtractStep { initExtractorState with pdfFile := some ⟨"a.pdf"⟩ }
        (.notOk (some "PDF unreadable"))).1.errorMsg = "PDF unreadable" :=
  ⟨(error_message_propagation initGenState
      { initExtractorState with pdfFile := some ⟨"a.pdf"⟩ }
      "sid" "boom" ⟨"a.pdf"⟩ "PDF unreadable" (by decide) rfl).1,
   (error_message_propagation initGenState
      { initExtractorState with pdfFile := some ⟨"a.pdf"⟩ }
      "sid" "boom" ⟨"a.pdf"⟩ "PDF unreadable" (by decide) rfl).2.2.2.2.2⟩

/-- C5 (confirmed): initializing the mapping configuration from the
discovered placeholders produces exactly one entry per placeholder
name (and none for other names), and a placeholder matched by no
header is configured so that the engine-side resolver yields the
empty string for it on every row. -/
theorem mapping_initialization_complete (placeholders headers : List String)
    (ph : String) (row : RowData) :
    (ph ∈ placeholders →
      countKey (autoDetectMappings placeholders headers []) ph = 1)
    ∧ (ph ∉ placeholders →
      countKey (autoDetectMappings placeholders headers []) ph = 0)
    ∧ (findMatch ph headers = "" →
      resolve (specConfigOf (configFor ph headers)) row = "") := by
  refine ⟨?_, ?_, ?_⟩
  · intro hmem
    rw [countKey_autoDetect placeholders headers [] ph (by simp [countKey])]
    simp [hmem]
  · intro hmem
    rw [countKey_autoDetect placeholders headers [] ph (by simp [countKey])]
    simp [hmem, countKey]
  · intro hm
    simp [configFor, hm, specConfigOf, cleanValue, resolve]

theorem mapping_initialization_complete_witness :
    countKey (autoDetectMappings ["#NAME"] [] []) "#NAME" = 1
    ∧ countKey (autoDetectMappings ["#NAME"] [] []) "#OTHER" = 0
    ∧ resolve (specConfigOf (configFor "#NAME" [])) [("A", "b")] = "" :=
  ⟨(mapping_initialization_complete ["#NAME"] [] "#NAME" [("A", "b")]).1 (by decide),
   (mapping_initialization_complete ["#NAME"] [] "#OTHER" [("A", "b")]).2.1 (by decide),
   (mapping_initialization_complete ["#NAME"] [] "#NAME" [("A", "b")]).2.2 (by decide)⟩

/-- C6 (counterexample): the entry the client constructs for a
placeholder bound solely to a column is tagged `"csv_column"`, not
`"data_column"`, refuting the claimed variant name. -/
theorem column_mapping_tag_is_csv_column :
    (getField (cleanEntryJson ⟨.csv_column, "Name", "", "ID: ", " units"⟩)
        "type").bind asStr = some "csv_column"
    ∧ (getField (cleanEntryJson ⟨.csv_column, "Name", "", "ID: ", " units"⟩)
        "type").bind asStr ≠ some "data_column" := by
  refine ⟨?_, ?_⟩ <;> decide

/-- C6 (amended): a mapping entry binding a placeholder solely to a
column is the variant tagged `csv_column`, and the payload the client
sends for it carries exactly the fields `type`, `value` (the column
name), `prefix` and `suffix` — no case modifier and no fallback
field. -/
theorem column_mapping_payload_shape (c : MappingConfig)
    (h : c.type = .csv_column) :
    topKeys (cleanEntryJson c) = ["type", "value", "prefix", "suffix"]
    ∧ (getField (cleanEntryJson c) "type").bind asStr = some "csv_column"
    ∧ (getField (cleanEntryJson c) "value").bind asStr = some c.value
    ∧ (getField (cleanEntryJson c) "prefix").bind asStr = some c.pre
    ∧ (getField (cleanEntryJson c) "suffix").bind asStr = some c.suf := by
  obtain ⟨t, v, ct, p, s⟩ := c
  simp only at h
  subst h
  exact ⟨rfl, rfl, rfl, rfl, rfl⟩

theorem column_mapping_payload_shape_witness :
    topKeys (cleanEntryJson ⟨.csv_column, "Name", "", "", ""⟩)
      = ["type", "value", "prefix", "suffix"] :=
  (column_mapping_payload_shape ⟨.csv_column, "Name", "", "", ""⟩ rfl).1

/-- C7 (confirmed, engine modelled from the spec): the resolver is a
pure function — identical inputs give identical outputs — and for a
`custom_text` configuration the result is exactly the configured
literal on every row, with prefix, suffix, modifier and fallback all
ignored. -/
theorem resolve_pure_custom_text (cfg : SpecMappingConfig)
    (row row2 : RowData) :
    resolve cfg row = resolve cfg row
    ∧ (cfg.tag = .custom_text →
        resolve cfg row = cfg.value
        ∧ resolve cfg row = resolve cfg row2
        ∧ ∀ (p s : String) (mo : CaseModifier) (fb : Option String),
            resolve { cfg with pre := p, suf := s, modifier := mo, fallback := fb }
              row = cfg.value) := by
  refine ⟨rfl, fun h => ?_⟩
  obtain ⟨t, v, pr, su, mo, fb⟩ := cfg
  simp only at h
  subst h
  exact ⟨rfl, rfl, fun _ _ _ _ => rfl⟩

theorem resolve_pure_custom_text_witness :
    resolve ⟨.custom_text, "Hello", "P-", "-S", .uppercase, some "N/A"⟩
      [("Name", "Alice")] = "Hello" :=
  ((resolve_pure_custom_text ⟨.custom_text, "Hello", "P-", "-S", .uppercase, some "N/A"⟩
      [("Name", "Alice")] []).2 rfl).1

/-- C8 (confirmed, engine modelled from the spec): for `rowsPerDoc ≥ 1`
the batcher produces `ceil(n / rowsPerDoc)` groups, group `i` holds
exactly the rows of the range `[i*rowsPerDoc, min((i+1)*rowsPerDoc,
n))`, the concatenation of all groups is the original row sequence
with no gaps or overlaps, and `rowsPerDoc ≤ 0` is treated as `1`. -/
theorem row_batcher_spec {α : Type} (rows : List α) (rpd : Int) :
    (1 ≤ rpd →
      (batch rows rpd).length = ceilDiv rows.length rpd.toNat
      ∧ (∀ i, i < (batch rows rpd).length →
          (batch rows rpd)[i]? =
            some ((rows.drop (i * rpd.toNat)).take rpd.toNat))
      ∧ (batch rows rpd).flatten = rows)
    ∧ (rpd ≤ 0 → batch rows rpd = batch rows 1) := by
  constructor
  · intro h1
    have hnot : ¬ rpd ≤ 0 := by omega
    have hr : 1 ≤ rpd.toNat := by omega
    have hmax : max rpd.toNat 1 = rpd.toNat := by omega
    unfold batch
    rw [if_neg hnot]
    refine ⟨?_, ?_, ?_⟩
    · rw [chunkList_length, hmax]
    · intro i hi
      rw [chunkList_getElem _ _ _ hi, hmax]
    · exact chunkList_flatten _ _
  · intro h0
    unfold batch
    rw [if_pos h0, if_neg (by omega : ¬ (1 : Int) ≤ 0)]
    rfl

theorem row_batcher_spec_witness :
    (batch ["a", "b", "c"] 2).length = ceilDiv 3 2
    ∧ (batch ["a", "b", "c"] 2).flatten = ["a", "b", "c"]
    ∧ batch ["a"] (-1) = batch ["a"] 1 :=
  ⟨((row_batcher_spec ["a", "b", "c"] 2).1 (by omega)).1,
   ((row_batcher_spec ["a", "b", "c"] 2).1 (by omega)).2.2,
   (row_batcher_spec ["a"] (-1)).2 (by omega)⟩

/-- C9 (confirmed): selecting a file whose name does not end in
`.pdf` (case-insensitively) only sets the error message, leaving the
stored file and step unchanged; a `.pdf` name is stored, clears the
error and advances to step 2; and from any reachable state an extract
request is only ever issued for a file whose name ends in `.pdf`. -/
theorem extractor_pdf_gate (st : ExtractorState) (h : Reachable st) :
    (∀ f : FileRec, endsWithPdf f.name = false →
      (processPdfSelection st f).errorMsg = "Please upload a valid PDF file."
      ∧ (processPdfSelection st f).pdfFile = st.pdfFile
      ∧ (processPdfSelection st f).step = st.step)
    ∧ (∀ f : FileRec, endsWithPdf f.name = true →
      (processPdfSelection st f).pdfFile = some f
      ∧ (processPdfSelection st f).errorMsg = ""
      ∧ (processPdfSelection st f).step = 2)
    ∧ (∀ (o : ExtractOutcome) (st' : ExtractorState) (req : ExtractRequest),
      handleExtractStep st o = (st', some req) →
      endsWithPdf req.pdfFile.name = true) := by
  refine ⟨?_, ?_, ?_⟩
  · intro f hf
    simp [processPdfSelection, hf]
  · intro f hf
    simp [processPdfSelection, hf]
  · intro o st' req hreq
    cases hpf : st.pdfFile with
    | none => simp [handleExtractStep, hpf] at hreq
    | some g =>
      have hg : endsWithPdf g.name = true := reachable_pdfFile_valid st h g hpf
      have hreqg : req.pdfFile = g := by
        unfold handleExtractStep at hreq
        rw [hpf] at hreq
        cases o <;> simp at hreq <;> rw [← hreq.2]
      rw [hreqg]
      exact hg

theorem extractor_pdf_gate_witness :
    (processPdfSelection initExtractorState ⟨"notes.txt"⟩).errorMsg
      = "Please upload a valid PDF file."
    ∧ endsWithPdf
        (ExtractRequest.mk ⟨"scan.pdf"⟩ .allText .excel).pdfFile.name = true :=
  ⟨((extractor_pdf_gate initExtractorState Reachable.init).1
      ⟨"notes.txt"⟩ (by decide)).1,
   ((extractor_pdf_gate (processPdfSelection initExtractorState ⟨"scan.pdf"⟩)
      (Reachable.selectPdf initExtractorState ⟨"scan.pdf"⟩ Reachable.init)).2.2
      .ok initExtractorState (ExtractRequest.mk ⟨"scan.pdf"⟩ .allText .excel)
      (by decide))⟩

/-- C10 (confirmed): `handleGenerate` is atomic for the visible state —
a non-ok response or a network error writes only `errorMsg`, leaving
`step`, `generationComplete` and `downloadUrl` unchanged; on an ok
response `step` becomes 3, `generationComplete` becomes true and
`downloadUrl` is set; `isGenerating` is reset to false on every
path. -/
theorem handleGenerate_atomicity (st : GenState) (url svcMsg netMsg : String) :
    (handleGenerate st (.notOk svcMsg)).errorMsg = "Generation failed"
    ∧ (handleGenerate st (.notOk svcMsg)).step = st.step
    ∧ (handleGenerate st (.notOk svcMsg)).generationComplete = st.generationComplete
    ∧ (handleGenerate st (.notOk svcMsg)).downloadUrl = st.downloadUrl
    ∧ (handleGenerate st (.networkError netMsg)).errorMsg = netMsg
    ∧ (handleGenerate st (.networkError netMsg)).step = st.step
    ∧ (handleGenerate st (.networkError netMsg)).generationComplete
        = st.generationComplete
    ∧ (handleGenerate st (.networkError netMsg)).downloadUrl = st.downloadUrl
    ∧ (handleGenerate st (.ok url)).step = 3
    ∧ (handleGenerate st (.ok url)).generationComplete = true
    ∧ (handleGenerate st (.ok url)).downloadUrl = url
    ∧ (handleGenerate st (.ok url)).isGenerating = false
    ∧ (handleGenerate st (.notOk svcMsg)).isGenerating = false
    ∧ (handleGenerate st (.networkError netMsg)).isGenerating = false :=
  ⟨rfl, rfl, rfl, rfl, rfl, rfl, rfl, rfl, rfl, rfl, rfl, rfl, rfl, rfl⟩

end DocumentForge
